import Mathlib

/-!
Verification of the arxiv-autosumm API-orchestration core against its
natural-language specification.  The Python sources under `src/autosumm/`
are shallowly embedded: network effects (HTTP requests, batch submission,
polling) are abstracted into explicit input parameters carrying their
outcomes, SQLite tables become association lists inside an explicit state
record, and Python exceptions become `Except` results.  All definitions
follow the control flow of the corresponding Python functions line by
line; the file then proves or refutes the frozen claims about them.
-/

/- ----------------------------------------------------------------------
   Request client: `src/autosumm/pipeline/client.py`
   ---------------------------------------------------------------------- -/

/-- ASCII lowercasing of one character, as performed by Python's
`str.lower` on the provider identifiers used here. -/
def lowerChar (c : Char) : Char :=
  if 'A' ≤ c ∧ c ≤ 'Z' then Char.ofNat (c.toNat + 32) else c

/-- Embedding of `self.config.provider.lower()` (client.py:86, 90). -/
def lowerStr (s : String) : String :=
  String.mk (s.data.map lowerChar)

/-- One line of the downloaded batch result file, as seen by the parsing
loop of `BaseClient._download_batch_results` (client.py:295-314).  A line
that fails `json.loads` or lacks a required key raises
`JSONDecodeError`/`KeyError` and is skipped (`continue`); an intact line
yields a `custom_id` and either a content string or `None` (explicit
error entry). -/
inductive ResultLine where
  | malformed
  | entry (custom_id : String) (content : Option String)
deriving DecidableEq

/-- Python-dict insertion: replace the value of an existing key in place,
otherwise append the binding (insertion order preserved). -/
def dictInsert (d : List (String × Option String)) (k : String) (v : Option String) :
    List (String × Option String) :=
  match d with
  | [] => [(k, v)]
  | (k', v') :: rest => if k' = k then (k, v) :: rest else (k', v') :: dictInsert rest k v

/-- Python-dict lookup (`dict.get`): the value stored under `k`, if any. -/
def dictLookup (d : List (String × Option String)) (k : String) : Option (Option String) :=
  match d with
  | [] => none
  | (k', v') :: rest => if k' = k then some v' else dictLookup rest k

/-- The `results` dict built by `_download_batch_results` (client.py:294-314):
malformed lines are skipped, intact lines are inserted keyed by their
`custom_id`. -/
def batchResultsDict (lines : List ResultLine) : List (String × Option String) :=
  lines.foldl
    (fun d l =>
      match l with
      | .malformed => d
      | .entry cid c => dictInsert d cid c)
    []

/-- The reassembly loop of `_download_batch_results` (client.py:317-322):
`for i in range(len(results)): ordered_results.append(results.get(f"request_{i}"))`.
Note the range is the size of the parsed dict, not the number of inputs. -/
def orderedResults (lines : List ResultLine) : List (Option String) :=
  let results := batchResultsDict lines
  (List.range results.length).map fun i => (dictLookup results ("request_" ++ toString i)).join

/-- Terminal batch-job description returned by `_wait_for_batch`. -/
structure BatchInfo where
  status : String
  output_file_id : Option String
deriving DecidableEq

/-- Embedding of `BaseClient._download_batch_results` (client.py:273-322): a
non-`completed` status or a missing output file raises `RuntimeError`;
otherwise the downloaded lines are parsed and reassembled by index. -/
def download_batch_results (info : BatchInfo) (lines : List ResultLine) :
    Except String (List (Option String)) :=
  if info.status ≠ "completed" then
    .error ("Batch job failed with status: " ++ info.status)
  else
    match info.output_file_id with
    | none => .error "No output file available"
    | some _ => .ok (orderedResults lines)

/-- Embedding of `BaseClient._retry_failed_items` (client.py:324-346).
`single` is the `process_single` oracle (it catches its own exceptions and
yields `none` on failure, client.py:387-396); an out-of-range index or a
retry exception leaves the slot `none`, exactly as the `try/except` around
the retry loop does. -/
def retry_failed_items {α : Type} (fallback : Bool) (single : α → Option String)
    (inputs : List α) (batchResults : List (Option String)) : List (Option String) :=
  if !fallback then batchResults
  else
    batchResults.enum.map fun p =>
      match p.2 with
      | some s => some s
      | none => (inputs.get? p.1).bind single

/-- Embedding of `BaseClient.process_batch` (client.py:348-385).  The
provider dispatch, the unprotected submit/wait/download sequence
(`submitOutcome` carries any exception raised before results exist), and
the per-item retry pass are modelled exactly; temporary-file bookkeeping
is omitted as it does not affect the returned value. -/
def process_batch {α : Type} (provider : String) (fallback : Bool)
    (single : α → Option String) (inputs : List α)
    (submitOutcome : Except String BatchInfo) (lines : List ResultLine) :
    Except String (List (Option String)) :=
  if lowerStr provider = "ollama" then
    if fallback then .ok (inputs.map single)
    else .error "Batch processing not supported for Ollama provider"
  else if lowerStr provider = "anthropic" then
    if fallback then .ok (inputs.map single)
    else .error "Batch processing not supported for Anthropic provider"
  else
    match submitOutcome with
    | .error e => .error e
    | .ok info =>
      match download_batch_results info lines with
      | .error e => .error e
      | .ok batchResults => .ok (retry_failed_items fallback single inputs batchResults)

/- ----------------------------------------------------------------------
   LLM rating: `src/autosumm/pipeline/rate.py`
   ---------------------------------------------------------------------- -/

/-- Result record produced by the raters (rate.py:51-56). -/
structure RateResult where
  score : ℚ
  success : Bool
  error : Option String
  method : String
deriving DecidableEq

/-- Embedding of `rate_llm` (rate.py:367-415).  `single` is the per-item
synchronous rating oracle; `batchOutcome` is the outcome of
`RaterLLMClient(...)` plus `client.process_batch(parsed_contents)` in the
batch-enabled path — an `error` models any exception raised during client
construction, submission, polling or download.  In that case the function
returns the single failure record built in the `except` clause
(rate.py:406-415). -/
def rate_llm (batchFlag : Bool) (contents : List String) (single : String → Option ℚ)
    (batchOutcome : Except String (List (Option ℚ))) : List RateResult :=
  if !batchFlag then
    contents.map fun c =>
      match single c with
      | some s => ⟨s, true, none, "llm_single"⟩
      | none => ⟨0, false, some "Single processing failed for this item.", "llm_single"⟩
  else
    match batchOutcome with
    | .ok results =>
      results.map fun r =>
        match r with
        | some s => ⟨s, true, none, "llm_batch"⟩
        | none => ⟨0, false, some "Batch processing failed for this item.", "llm_batch"⟩
    | .error e => [⟨0, false, some e, "llm_batch"⟩]

/- ----------------------------------------------------------------------
   Score cache: `src/autosumm/pipeline/cache.py`
   ---------------------------------------------------------------------- -/

/-- State of the SQLite database managed by `CacheManager`
(cache.py:35-86): the four score/marker tables as association lists keyed
by `arxiv_id` (each a `PRIMARY KEY` column) and the `config_history` table
in insertion order (rows carry `CURRENT_TIMESTAMP`, so the most recent row
is the last inserted one). -/
structure CacheState where
  similarity_scores : List (String × ℚ)
  rating_scores : List (String × ℚ × String)
  summariesTbl : List (String × String)
  processed_papers : List (String × String)
  config_history : List String
deriving DecidableEq

/-- Embedding of `CacheManager.is_paper_processed` (cache.py:218-230). -/
def is_paper_processed (st : CacheState) (arxiv_id : String) : Bool :=
  (st.processed_papers.find? fun r => r.1 == arxiv_id).isSome

/-- Embedding of `CacheManager.get_similarity_score` (cache.py:102-114). -/
def get_similarity_score (st : CacheState) (arxiv_id : String) : Option ℚ :=
  (st.similarity_scores.find? fun r => r.1 == arxiv_id).map (·.2)

/-- Embedding of `CacheManager.get_rating_score` (cache.py:130-146). -/
def get_rating_score (st : CacheState) (arxiv_id : String) : Option (ℚ × String) :=
  (st.rating_scores.find? fun r => r.1 == arxiv_id).map (·.2)

/-- Embedding of `CacheManager.clear_all_cache` (cache.py:327-339): empties
the similarity, rating and summary tables, and the processed-papers table
only when `preserve_processed_papers` is false. -/
def clear_all_cache (preserve_processed_papers : Bool) (st : CacheState) : CacheState :=
  let st1 := { st with similarity_scores := [], rating_scores := [], summariesTbl := [] }
  if preserve_processed_papers then st1 else { st1 with processed_papers := [] }

/-- Embedding of `CacheManager.detect_and_handle_config_changes`
(cache.py:247-280), taking the already-computed hash of the current
configuration.  The last stored hash is the most recent `config_history`
row; on a differing hash the caches are cleared (processed papers
preserved) unless this is the first run, and then
`INSERT INTO config_history (config_hash) VALUES (?)` is executed.
Because `config_hash` is the table's `PRIMARY KEY` (cache.py:78-83), that
insert raises `sqlite3.IntegrityError` when the hash is already present
from an earlier configuration; the clears were already committed at that
point, so the returned pair is the committed state together with the
raised error, if any. -/
def detect_and_handle_config_changes (st : CacheState) (currentHash : String) :
    CacheState × Option String :=
  let last := st.config_history.getLast?
  if last ≠ some currentHash then
    let st1 := if last = none then st else clear_all_cache true st
    if st1.config_history.contains currentHash then
      (st1, some "UNIQUE constraint failed: config_history.config_hash")
    else
      ({ st1 with config_history := st1.config_history ++ [currentHash] }, none)
  else (st, none)

/- ----------------------------------------------------------------------
   Selection funnel: `src/autosumm/main.py`
   ---------------------------------------------------------------------- -/

/-- Slice of `PaperMetadata` (main.py:21-31) relevant to the selection
funnel. -/
structure Paper where
  arxiv_id : String
  embed_score : Option ℚ
  llm_score : Option ℚ
deriving DecidableEq

/-- Sort key `lambda p: p.embed_score` (main.py:173); in the branches
where it is applied every paper has a score, so the default is never
observable. -/
def embedKey (p : Paper) : ℚ := p.embed_score.getD 0

/-- Sort key `lambda p: p.llm_score` (main.py:191, 220). -/
def llmKey (p : Paper) : ℚ := p.llm_score.getD 0

/-- Embedding of Python's `sorted(l, key=key, reverse=True)`: a stable
sort into descending key order. -/
def sortDescBy (key : Paper → ℚ) (l : List Paper) : List Paper :=
  List.insertionSort (fun a b => key b ≤ key a) l

/-- Freshly scored papers appended to `papers_with_score` inside the loop
of `select_papers_embed` (main.py:153-167): papers zipped against the
`rate_embed` results, keeping only successful results and writing the
score into the paper. -/
def embedFresh (toRate : List Paper) (rateResults : List RateResult) : List Paper :=
  (toRate.zip rateResults).filterMap fun pr =>
    if pr.2.success then some { pr.1 with embed_score := some pr.2.score } else none

/-- Full survivor list of Stage A: papers with cached similarity scores
followed by the freshly scored ones (main.py:140, 153-167). -/
def embedSurvivorsOf (papers : List Paper) (rateResults : List RateResult) : List Paper :=
  (papers.filter fun p => p.embed_score.isSome) ++
    embedFresh (papers.filter fun p => p.embed_score.isNone) rateResults

/-- Embedding of `select_papers_embed` (main.py:136-179); `rateResults` is
the value returned by `rate_embed` for the papers lacking a cached score.
Mirrors the source's three exits: the early return when no paper needs
rating (main.py:145-147), the below-`top_k` return (main.py:169-171) and
the sort-and-truncate return (main.py:172-176). -/
def select_papers_embed (papers : List Paper) (rateResults : List RateResult)
    (top_k : ℕ) : List Paper :=
  if (papers.filter fun p => p.embed_score.isNone).isEmpty then
    papers.filter fun p => p.embed_score.isSome
  else if (embedSurvivorsOf papers rateResults).length < top_k then
    embedSurvivorsOf papers rateResults
  else
    (sortDescBy embedKey (embedSurvivorsOf papers rateResults)).take top_k

/-- Freshly rated papers appended to `papers_with_score` inside the loop
of `select_papers_llm` (main.py:200-214). -/
def llmFresh (toRate : List Paper) (rateResults : List RateResult) : List Paper :=
  (toRate.zip rateResults).filterMap fun pr =>
    if pr.2.success then some { pr.1 with llm_score := some pr.2.score } else none

/-- Full survivor list of Stage B: papers with cached rating scores
followed by the freshly rated ones (main.py:185, 200-214). -/
def llmSurvivorsOf (papers : List Paper) (rateResults : List RateResult) : List Paper :=
  (papers.filter fun p => p.llm_score.isSome) ++
    llmFresh (papers.filter fun p => p.llm_score.isNone) rateResults

/-- Embedding of `select_papers_llm` (main.py:181-226); mirrors the
source's three exits: the all-cached branch that sorts and truncates
(main.py:190-194), the within-`max_selected` return (main.py:216-218) and
the sort-and-truncate return (main.py:219-223). -/
def select_papers_llm (papers : List Paper) (rateResults : List RateResult)
    (max_selected : ℕ) : List Paper :=
  if (papers.filter fun p => p.llm_score.isNone).isEmpty then
    (sortDescBy llmKey (papers.filter fun p => p.llm_score.isSome)).take max_selected
  else if (llmSurvivorsOf papers rateResults).length ≤ max_selected then
    llmSurvivorsOf papers rateResults
  else
    (sortDescBy llmKey (llmSurvivorsOf papers rateResults)).take max_selected

/- ----------------------------------------------------------------------
   Configuration hashing: `CacheManager._calculate_config_hash`
   ---------------------------------------------------------------------- -/

/- JSON value tree standing for a Python configuration dictionary: the
nesting of dicts, lists, strings, numbers, booleans and `None` that
`json.dumps` serializes (cache.py:91).  Mutual inductives are used instead
of nested `List` fields so that all functions below are structurally
recursive and computable by the kernel. -/
mutual
inductive JValue where
  | null
  | jbool (b : Bool)
  | num (n : Int)
  | str (s : String)
  | arr (items : JList)
  | obj (entries : JEntryList)
inductive JList where
  | jnil
  | jcons (v : JValue) (rest : JList)
inductive JEntryList where
  | enil
  | econs (key : String) (v : JValue) (rest : JEntryList)
end

/-- Boolean key-uniqueness check: Python dicts cannot hold a key twice. -/
def nodupKeys : List String → Bool
  | [] => true
  | k :: rest => !rest.contains k && nodupKeys rest

/-- Keys of an object's entry list, in order. -/
def jkeys : JEntryList → List String
  | .enil => []
  | .econs k _ rest => k :: jkeys rest

/-- Entry list as a plain list of pairs (used to state permutations). -/
def toPairs : JEntryList → List (String × JValue)
  | .enil => []
  | .econs k v rest => (k, v) :: toPairs rest

/-- Lower-case hexadecimal digit. -/
def hexDigit (n : ℕ) : Char :=
  if n < 10 then Char.ofNat (48 + n) else Char.ofNat (87 + n)

/-- Four-digit hexadecimal rendering used by JSON `\uXXXX` escapes. -/
def hex4 (n : ℕ) : String :=
  String.mk [hexDigit (n / 4096 % 16), hexDigit (n / 256 % 16),
    hexDigit (n / 16 % 16), hexDigit (n % 16)]

/-- Escaping of one character, after CPython's `json.dumps` default
(`ensure_ascii=True`); code points beyond the Basic Multilingual Plane
would use surrogate pairs, which configuration content does not contain,
so they are rendered here with a single escape. -/
def escapeChar (c : Char) : String :=
  if c = '"' then "\\\""
  else if c = '\\' then "\\\\"
  else if c = '\n' then "\\n"
  else if c = '\t' then "\\t"
  else if c = '\r' then "\\r"
  else if c.toNat < 32 ∨ 126 < c.toNat then "\\u" ++ hex4 c.toNat
  else String.singleton c

/-- JSON string-body escaping. -/
def escapeString (s : String) : String :=
  String.join (s.data.map escapeChar)

/-- JSON string literal. -/
def jstring (s : String) : String :=
  "\"" ++ escapeString s ++ "\""

/-- Sorting of the rendered entries by key, as `sort_keys=True` sorts
`d.items()`; keys are unique in a dict, so comparison never reaches the
values. -/
def sortPairs (l : List (String × String)) : List (String × String) :=
  List.insertionSort (fun a b => a.1 ≤ b.1) l

/-- One `"key": value` fragment with the default `": "` separator. -/
def renderEntry (p : String × String) : String :=
  jstring p.1 ++ ": " ++ p.2

/- Embedding of `json.dumps(config_dict, sort_keys=True)` (cache.py:91):
default separators, keys sorted at every object. -/
mutual
def dumps : JValue → String
  | .null => "null"
  | .jbool b => if b then "true" else "false"
  | .num n => toString n
  | .str s => jstring s
  | .arr items => "[" ++ String.intercalate ", " (dumpsList items) ++ "]"
  | .obj entries =>
    "\x7b" ++ String.intercalate ", " ((sortPairs (dumpsEntries entries)).map renderEntry) ++ "\x7d"
def dumpsList : JList → List String
  | .jnil => []
  | .jcons v rest => dumps v :: dumpsList rest
def dumpsEntries : JEntryList → List (String × String)
  | .enil => []
  | .econs k v rest => (k, dumps v) :: dumpsEntries rest
end

/- Well-formedness of a value as the image of a Python object: every
object's keys are pairwise distinct (a dict cannot hold duplicates). -/
mutual
def wfJ : JValue → Bool
  | .null => true
  | .jbool _ => true
  | .num _ => true
  | .str _ => true
  | .arr items => wfList items
  | .obj entries => nodupKeys (jkeys entries) && wfEntries entries
def wfList : JList → Bool
  | .jnil => true
  | .jcons v rest => wfJ v && wfList rest
def wfEntries : JEntryList → Bool
  | .enil => true
  | .econs _ v rest => wfJ v && wfEntries rest
end

/- Size measure for the strong induction below. -/
mutual
def jsize : JValue → ℕ
  | .null => 1
  | .jbool _ => 1
  | .num _ => 1
  | .str _ => 1
  | .arr items => jsizeList items + 1
  | .obj entries => jsizeEntries entries + 1
def jsizeList : JList → ℕ
  | .jnil => 0
  | .jcons v rest => jsize v + jsizeList rest
def jsizeEntries : JEntryList → ℕ
  | .enil => 0
  | .econs _ v rest => jsize v + jsizeEntries rest
end

/- Equality of configurations as unordered key-value mappings: equal
atoms, element-wise equivalent arrays, and objects whose entry lists agree
up to a permutation, with values compared recursively. -/
mutual
inductive JEquiv : JValue → JValue → Prop where
  | null : JEquiv .null .null
  | jbool (b : Bool) : JEquiv (.jbool b) (.jbool b)
  | num (n : Int) : JEquiv (.num n) (.num n)
  | str (s : String) : JEquiv (.str s) (.str s)
  | arr {l₁ l₂ : JList} : JEquivList l₁ l₂ → JEquiv (.arr l₁) (.arr l₂)
  | obj {l₁ mid l₂ : JEntryList} : JEquivEntries l₁ mid →
      (toPairs mid).Perm (toPairs l₂) → JEquiv (.obj l₁) (.obj l₂)
inductive JEquivList : JList → JList → Prop where
  | nil : JEquivList .jnil .jnil
  | cons {v w : JValue} {rest₁ rest₂ : JList} : JEquiv v w → JEquivList rest₁ rest₂ →
      JEquivList (.jcons v rest₁) (.jcons w rest₂)
inductive JEquivEntries : JEntryList → JEntryList → Prop where
  | nil : JEquivEntries .enil .enil
  | cons (k : String) {v w : JValue} {rest₁ rest₂ : JEntryList} : JEquiv v w →
      JEquivEntries rest₁ rest₂ → JEquivEntries (.econs k v rest₁) (.econs k w rest₂)
end

/-- Embedding of `CacheManager._calculate_config_hash` (cache.py:88-92):
`sha256(json.dumps(config_dict, sort_keys=True).encode()).hexdigest()`.
The digest is abstracted as an arbitrary function `sha256hex` of the
serialized string — every property claimed here depends only on the
serialization feeding it. -/
def calculate_config_hash (sha256hex : String → String) (config : JValue) : String :=
  sha256hex (dumps config)

/-- Sample configuration used by the key-order witness. -/
def sampleConfigA : JValue :=
  .obj (.econs "summarizer"
    (.obj (.econs "model" (.str "m1") (.econs "temp" (.num 1) .enil)))
    (.econs "provider" (.str "openai") .enil))

/-- The same configuration with both nesting levels enumerated in the
opposite key order. -/
def sampleConfigB : JValue :=
  .obj (.econs "provider" (.str "openai")
    (.econs "summarizer"
      (.obj (.econs "temp" (.num 1) (.econs "model" (.str "m1") .enil))) .enil))

/- ----------------------------------------------------------------------
   Pipeline early exit: `run_pipeline` in `src/autosumm/main.py`
   ---------------------------------------------------------------------- -/

/-- Key of a Python dict as used by `run_pipeline`: either a string
literal, or an arbitrary non-string object — here the imported function
`deliver` (main.py:16) that the early-exit code uses as a subscript. -/
inductive PyKey where
  | str (s : String)
  | func (name : String)
deriving DecidableEq

/-- Python `d[k]` on a dict: the stored value, or a raised `KeyError`. -/
def pyDictGet {α : Type} (d : List (PyKey × α)) (k : PyKey) : Except String α :=
  match d.find? fun kv => kv.1 == k with
  | some kv => .ok kv.2
  | none => .error "KeyError"

/-- Embedding of the zero-papers early exit of `run_pipeline`
(main.py:349-353): after `fetch_new_papers` returns no papers the code
runs `if log_file_path: deliver([log_file_path], config[deliver])` and
returns.  The subscript is the function object `deliver`, not the string
`"deliver"`; the dict produced by `get_pipeline_configs` is string-keyed,
so the lookup raises `KeyError`, which the outer handler (main.py:432-445)
logs and re-raises.  The same `config[deliver]` subscript appears at every
early exit (main.py:352, 363, 389, 406). -/
def run_pipeline_no_papers {α : Type} (config : List (PyKey × α)) (send_log : Bool) :
    Except String Unit :=
  let log_file_path : Option String := if send_log then some "run-log.txt" else none
  match log_file_path with
  | some _ =>
    match pyDictGet config (.func "deliver") with
    | .ok _ => .ok ()
    | .error e => .error e
  | none => .ok ()

/- ----------------------------------------------------------------------
   PDF-cache eviction: `Cacher.cleanup_pdf_cache`
   ---------------------------------------------------------------------- -/

/-- One cached binary artifact (a downloaded PDF) on disk: file name,
size in bytes and a last-use timestamp (larger is more recent). -/
structure Artifact where
  name : String
  size : ℕ
  lastUsed : ℕ
deriving DecidableEq

/-- Total on-disk size of a set of artifacts. -/
def totalSize (arts : List Artifact) : ℕ :=
  (arts.map Artifact.size).sum

/-- Modelled from the spec: the eviction target size of
`evictLargeArtifacts` — `Cacher.cleanup_pdf_cache` is called at main.py:81
but its definition is not under `src/`.  Spec §4.2: "a fraction of the
budget, or budget minus a fixed margin, whichever is larger", fixed by the
§8 example to 80% of the budget versus budget minus 128MB. -/
def evictTarget (sizeBudget : ℕ) : ℕ :=
  max (sizeBudget * 4 / 5) (sizeBudget - 128 * 1024 * 1024)

/-- Candidates for deletion ordered least-recently-used first. -/
def sortByLastUsed (l : List Artifact) : List Artifact :=
  List.insertionSort (fun a b => a.lastUsed ≤ b.lastUsed) l

/-- Modelled from the spec: the deletion loop of `evictLargeArtifacts`
(definition missing from `src/`): walk the non-kept artifacts in
least-recently-used-first order, deleting while the remaining total still
exceeds the target; returns the surviving candidates. -/
def evictFrom (target : ℕ) (kept : List Artifact) : List Artifact → List Artifact
  | [] => []
  | c :: rest =>
    if totalSize kept + totalSize (c :: rest) ≤ target then c :: rest
    else evictFrom target kept rest

/-- Modelled from the spec: `evictLargeArtifacts(keepSet, sizeBudget)`
(spec §4.2; the implementation, `Cacher.cleanup_pdf_cache`, is not under
`src/`, only its caller at main.py:79-81): if the total size exceeds the
budget, delete least-recently-used artifacts not in the keep set until the
target size is reached. -/
def evictLargeArtifacts (keepSet : List String) (sizeBudget : ℕ)
    (arts : List Artifact) : List Artifact :=
  if totalSize arts ≤ sizeBudget then arts
  else
    (arts.filter fun a => keepSet.contains a.name) ++
      evictFrom (evictTarget sizeBudget) (arts.filter fun a => keepSet.contains a.name)
        (sortByLastUsed (arts.filter fun a => !keepSet.contains a.name))

theorem sortDescBy_perm (key : Paper → ℚ) (l : List Paper) :
    (sortDescBy key l).Perm l :=
  List.perm_insertionSort _ l

theorem sortDescBy_sorted (key : Paper → ℚ) (l : List Paper) :
    (sortDescBy key l).Sorted fun a b => key b ≤ key a := by
  haveI : IsTotal Paper (fun a b => key b ≤ key a) := ⟨fun a b => le_total (key b) (key a)⟩
  haveI : IsTrans Paper (fun a b => key b ≤ key a) := ⟨fun a b c h1 h2 => le_trans h2 h1⟩
  exact List.sorted_insertionSort _ l

/- ----------------------------------------------------------------------
   Theorems for claims C1, C2, C3, C10
   ---------------------------------------------------------------------- -/

/-- C1: the claim states that `process_batch` always returns exactly one
entry per input, a malformed result line leaving only its own slot absent.
The code violates this: the reassembly loop ranges over `len(results)`
(the number of successfully parsed lines) instead of the number of inputs.
Failing input: two inputs, a result file whose first line is malformed and
whose second line carries the answer for `request_1`.  The code returns a
single-entry list `[none]` — the tail slot is dropped outright and the
present answer `"B"` is lost — instead of the claimed `[none, some "B"]`. -/
theorem download_batch_results_truncates_on_malformed_line :
    process_batch "openai" false (fun _ : String => none) ["a", "b"]
        (.ok ⟨"completed", some "file-1"⟩)
        [.malformed, .entry "request_1" (some "B")] = .ok [none] ∧
      ([none] : List (Option String)).length ≠ ["a", "b"].length ∧
      some "B" ∉ ([none] : List (Option String)) := by
  refine ⟨rfl, by decide, by decide⟩

/-- C2 counterexample: with the fallback flag enabled and a batch job whose
terminal status is `failed`, `process_batch` does not recover the items via
`process_single` — the `RuntimeError` raised by `_download_batch_results`
propagates, because `process_batch` wraps none of the submit/wait/download
steps in a try block. -/
theorem process_batch_failed_status_raises_despite_fallback :
    process_batch "openai" true (fun _ : String => some "recovered") ["a"]
        (.ok ⟨"failed", none⟩) [] =
      .error "Batch job failed with status: failed" := rfl

/-- C2 amended: for providers with native batch support, an exception
raised before a job exists and a non-`completed` terminal status (hence
also a failed download/parse step) always propagate to the caller,
regardless of the fallback flag; the fallback flag only governs the
per-item retry pass applied to the slots of a successfully completed and
downloaded batch, where every absent slot (and only absent slots) is
retried via `process_single`. -/
theorem process_batch_fallback_scope {α : Type} (provider : String) (fallback : Bool)
    (single : α → Option String) (inputs : List α) (info : BatchInfo)
    (lines : List ResultLine) (e : String)
    (hOllama : lowerStr provider ≠ "ollama") (hAnthropic : lowerStr provider ≠ "anthropic") :
    (process_batch provider fallback single inputs (.error e) lines = .error e) ∧
      (info.status ≠ "completed" →
        process_batch provider fallback single inputs (.ok info) lines =
          .error ("Batch job failed with status: " ++ info.status)) ∧
      (info.status = "completed" → info.output_file_id.isSome →
        process_batch provider fallback single inputs (.ok info) lines =
          .ok (retry_failed_items fallback single inputs (orderedResults lines))) ∧
      (∀ i : Nat,
        (retry_failed_items true single inputs (orderedResults lines))[i]? =
          ((orderedResults lines)[i]?).map
            fun r => r.orElse fun _ => (inputs.get? i).bind single) := by
  refine ⟨?_, ?_, ?_, ?_⟩
  · simp [process_batch, hOllama, hAnthropic]
  · intro hs
    simp [process_batch, hOllama, hAnthropic, download_batch_results, hs]
  · intro hs hf
    obtain ⟨f, hof⟩ := Option.isSome_iff_exists.mp hf
    simp [process_batch, hOllama, hAnthropic, download_batch_results, hs, hof]
  · intro i
    simp only [retry_failed_items, Bool.not_true, Bool.false_eq_true, if_false,
      List.getElem?_map, List.getElem?_enum]
    cases hx : (orderedResults lines)[i]? with
    | none => rfl
    | some r => cases r <;> simp [Option.orElse]

/-- C2 witness: instantiation of the amended theorem at a concrete failed
batch and a concrete completed batch. -/
theorem process_batch_fallback_scope_witness :
    (process_batch "openai" true (fun _ : String => some "r") ["a"]
        (.error "connection refused") [] = .error "connection refused") ∧
      (process_batch "openai" true (fun _ : String => some "r") ["a"]
          (.ok ⟨"expired", none⟩) [] = .error "Batch job failed with status: expired") := by
  have h := process_batch_fallback_scope (α := String) "openai" true
    (fun _ => some "r") ["a"] ⟨"expired", none⟩ [] "connection refused"
    (by decide) (by decide)
  exact ⟨h.1, h.2.1 (by decide)⟩

/-- C3 counterexample: for the Ollama provider with the fallback flag
disabled, `process_batch` raises `ValueError` instead of degrading to
sequential `process_single` calls — so callers do observe a difference
merely because the provider lacks batch support. -/
theorem process_batch_ollama_no_fallback_raises :
    process_batch "ollama" false (fun s : String => some s) ["x"]
        (.ok ⟨"completed", some "f"⟩) [] =
      .error "Batch processing not supported for Ollama provider" := rfl

/-- C3 amended: for providers without native batch support (`ollama`,
`anthropic`), `process_batch` degrades transparently to calling
`process_single` on every item in sequence only when the
`fallback_on_error` flag is enabled; when the flag is disabled it raises
`ValueError` instead. -/
theorem process_batch_no_native_batch_degrades_only_with_fallback {α : Type}
    (single : α → Option String) (inputs : List α)
    (submitOutcome : Except String BatchInfo) (lines : List ResultLine) :
    (process_batch "ollama" true single inputs submitOutcome lines =
        .ok (inputs.map single)) ∧
      (process_batch "anthropic" true single inputs submitOutcome lines =
        .ok (inputs.map single)) ∧
      (process_batch "ollama" false single inputs submitOutcome lines =
        .error "Batch processing not supported for Ollama provider") ∧
      (process_batch "anthropic" false single inputs submitOutcome lines =
        .error "Batch processing not supported for Anthropic provider") := by
  have ho : lowerStr "ollama" = "ollama" := rfl
  have ha : lowerStr "anthropic" = "anthropic" := rfl
  have hao : lowerStr "anthropic" ≠ "ollama" := by decide
  refine ⟨?_, ?_, ?_, ?_⟩ <;> simp [process_batch, ho, ha, hao]

/-- C10: whenever the batch-enabled path of `rate_llm` raises any
exception (client construction, submission, polling or download), the
function returns a list containing exactly one failed `RateResult`,
regardless of how many input contents were supplied; a caller zipping the
results against the inputs therefore pairs up at most one item. -/
theorem rate_llm_batch_exception_single_result (contents : List String)
    (single : String → Option ℚ) (e : String) (hn : 1 < contents.length) :
    rate_llm true contents single (.error e) = [⟨0, false, some e, "llm_batch"⟩] ∧
      (rate_llm true contents single (.error e)).length = 1 ∧
      (rate_llm true contents single (.error e)).length ≠ contents.length ∧
      (contents.zip (rate_llm true contents single (.error e))).length = 1 := by
  have hr : rate_llm true contents single (.error e) =
      [⟨0, false, some e, "llm_batch"⟩] := rfl
  refine ⟨hr, by rw [hr]; rfl, ?_, ?_⟩
  · rw [hr]; simp only [List.length_singleton]; omega
  · rw [hr, List.length_zip]
    simp only [List.length_singleton]
    omega

/-- C10 witness: concrete two-element input list. -/
theorem rate_llm_batch_exception_single_result_witness :
    rate_llm true ["paper one", "paper two"] (fun _ => some 1) (.error "boom") =
        [⟨0, false, some "boom", "llm_batch"⟩] ∧
      (rate_llm true ["paper one", "paper two"] (fun _ => some 1) (.error "boom")).length ≠
        (["paper one", "paper two"] : List String).length := by
  have h := rate_llm_batch_exception_single_result ["paper one", "paper two"]
    (fun _ => some 1) "boom" (by decide)
  exact ⟨h.1, h.2.2.1⟩

/- ----------------------------------------------------------------------
   Theorems for claim C4
   ---------------------------------------------------------------------- -/

/-- C4 counterexample: a configuration reverted to an earlier one.  The
history holds `hashA` then `hashB`; the computed hash `hashA` differs from
the most recent stored hash, so the score tables are cleared — but the
subsequent `INSERT INTO config_history` violates the `config_hash`
primary key, so the new hash is not recorded and the call raises, contrary
to the claim that a differing hash always ends with the new hash
recorded. -/
theorem detect_config_revert_unique_violation :
    detect_and_handle_config_changes
        ⟨[("2301.00001", 1)], [], [], [("2301.00001", "m")], ["hashA", "hashB"]⟩ "hashA" =
      (⟨[], [], [], [("2301.00001", "m")], ["hashA", "hashB"]⟩,
        some "UNIQUE constraint failed: config_history.config_hash") ∧
      (detect_and_handle_config_changes
          ⟨[("2301.00001", 1)], [], [], [("2301.00001", "m")], ["hashA", "hashB"]⟩
          "hashA").1.config_history.getLast? ≠ some "hashA" := by
  refine ⟨by decide, by decide⟩

/-- C4 amended: `detect_and_handle_config_changes` never touches the
processed-markers table, so `is_paper_processed` is unchanged in every
case.  On a first-ever invocation (empty history) it only records the new
hash and clears nothing; on a hash equal to the most recently stored one
it modifies nothing; on a differing hash it empties the similarity-score
and rating-score tables (also the summaries table) and then records the
new hash — provided the hash was never stored before.  If the differing
hash already occurs in the history (a reverted configuration), the tables
are still cleared but recording fails with a uniqueness violation and the
call raises. -/
theorem detect_and_handle_config_changes_cases (st : CacheState) (h : String) :
    ((detect_and_handle_config_changes st h).1.processed_papers = st.processed_papers) ∧
      (∀ pid,
        is_paper_processed (detect_and_handle_config_changes st h).1 pid =
          is_paper_processed st pid) ∧
      (st.config_history = [] →
        detect_and_handle_config_changes st h = ({ st with config_history := [h] }, none)) ∧
      (st.config_history.getLast? = some h →
        detect_and_handle_config_changes st h = (st, none)) ∧
      (∀ h', st.config_history.getLast? = some h' → h' ≠ h →
        st.config_history.contains h = false →
        detect_and_handle_config_changes st h =
          ({ st with
              similarity_scores := []
              rating_scores := []
              summariesTbl := []
              config_history := st.config_history ++ [h] }, none) ∧
        (∀ pid, get_similarity_score (detect_and_handle_config_changes st h).1 pid = none) ∧
        (∀ pid, get_rating_score (detect_and_handle_config_changes st h).1 pid = none)) ∧
      (∀ h', st.config_history.getLast? = some h' → h' ≠ h →
        st.config_history.contains h = true →
        detect_and_handle_config_changes st h =
          ({ st with similarity_scores := [], rating_scores := [], summariesTbl := [] },
            some "UNIQUE constraint failed: config_history.config_hash")) := by
  have hframe : (detect_and_handle_config_changes st h).1.processed_papers =
      st.processed_papers := by
    simp only [detect_and_handle_config_changes, clear_all_cache]
    split_ifs <;> rfl
  refine ⟨hframe, fun pid => by simp [is_paper_processed, hframe], ?_, ?_, ?_, ?_⟩
  · intro hnil
    simp [detect_and_handle_config_changes, hnil]
  · intro hlast
    simp [detect_and_handle_config_changes, hlast]
  · intro h' hlast hne hmem
    have hln : st.config_history.getLast? ≠ some h := by
      rw [hlast]; simp [hne]
    have hnn : st.config_history.getLast? ≠ none := by rw [hlast]; simp
    have hmem' : h ∉ st.config_history := by simpa using hmem
    have hres : detect_and_handle_config_changes st h =
        ({ st with
            similarity_scores := []
            rating_scores := []
            summariesTbl := []
            config_history := st.config_history ++ [h] }, none) := by
      simp [detect_and_handle_config_changes, hln, hnn, clear_all_cache, hmem']
    refine ⟨hres, fun pid => ?_, fun pid => ?_⟩
    · rw [hres]; simp [get_similarity_score]
    · rw [hres]; simp [get_rating_score]
  · intro h' hlast hne hmem
    have hln : st.config_history.getLast? ≠ some h := by
      rw [hlast]; simp [hne]
    have hnn : st.config_history.getLast? ≠ none := by rw [hlast]; simp
    have hmem' : h ∈ st.config_history := by simpa using hmem
    simp [detect_and_handle_config_changes, hln, hnn, clear_all_cache, hmem']

/-- C4 witness: a normal configuration change (history `[hashA]`, new hash
`hashB`): the score tables are emptied, processed markers survive and the
new hash is recorded; also a first run and an unchanged run. -/
theorem detect_and_handle_config_changes_cases_witness :
    (detect_and_handle_config_changes
        ⟨[("p1", 9)], [("p1", 4, "d")], [], [("p0", "m")], ["hashA"]⟩ "hashB" =
      (⟨[], [], [], [("p0", "m")], ["hashA", "hashB"]⟩, none)) ∧
      (detect_and_handle_config_changes ⟨[("p1", 9)], [], [], [], []⟩ "hashA" =
        (⟨[("p1", 9)], [], [], [], ["hashA"]⟩, none)) ∧
      (detect_and_handle_config_changes ⟨[("p1", 9)], [], [], [], ["hashA"]⟩ "hashA" =
        (⟨[("p1", 9)], [], [], [], ["hashA"]⟩, none)) ∧
      is_paper_processed
        (detect_and_handle_config_changes
          ⟨[("p1", 9)], [("p1", 4, "d")], [], [("p0", "m")], ["hashA"]⟩ "hashB").1 "p0" =
        is_paper_processed
          ⟨[("p1", 9)], [("p1", 4, "d")], [], [("p0", "m")], ["hashA"]⟩ "p0" := by
  have h1 := detect_and_handle_config_changes_cases
    ⟨[("p1", 9)], [("p1", 4, "d")], [], [("p0", "m")], ["hashA"]⟩ "hashB"
  have h2 := detect_and_handle_config_changes_cases
    ⟨[("p1", 9)], [], [], [], []⟩ "hashA"
  have h3 := detect_and_handle_config_changes_cases
    ⟨[("p1", 9)], [], [], [], ["hashA"]⟩ "hashA"
  refine ⟨?_, ?_, ?_, ?_⟩
  · exact ((h1.2.2.2.2.1 "hashA" (by decide) (by decide) (by decide)).1).trans (by decide)
  · exact (h2.2.2.1 (by decide)).trans (by decide)
  · exact h3.2.2.2.1 (by decide)
  · exact h1.2.1 "p0"

/- ----------------------------------------------------------------------
   Theorems for claims C6 and C7
   ---------------------------------------------------------------------- -/

/-- C6 counterexample: when every candidate already has a cached
similarity score, `select_papers_embed` returns early (main.py:145-147)
without ranking or truncating.  With cached scores `[0.9, 0.2, 0.5]` and
`top_k = 2` it returns all three papers in their original order instead of
the claimed two highest scorers. -/
theorem select_papers_embed_cached_untruncated :
    select_papers_embed
        [⟨"1", some 9, none⟩, ⟨"2", some 2, none⟩, ⟨"3", some 5, none⟩] [] 2 =
      [⟨"1", some 9, none⟩, ⟨"2", some 2, none⟩, ⟨"3", some 5, none⟩] ∧
      ([⟨"1", some 9, none⟩, ⟨"2", some 2, none⟩,
        (⟨"3", some 5, none⟩ : Paper)] : List Paper).length ≠ 2 := by
  refine ⟨by decide, by decide⟩

/-- C6 amended: candidates whose similarity scoring failed are dropped.
If at least one candidate needed fresh scoring, then: when the survivor
count is below `top_k` all survivors are returned (cached first, then
freshly scored, in original order — not re-ranked); otherwise the result
is exactly the first `top_k` entries of a stable descending sort of the
survivors by similarity score, so it has length `top_k`, is a
similarity-descending selection, and draws from a permutation of the
survivors.  When every candidate already has a cached score the function
instead returns all cached papers unsorted and untruncated. -/
theorem select_papers_embed_behavior (papers : List Paper) (rateResults : List RateResult)
    (k : ℕ) :
    ((papers.filter fun p => p.embed_score.isNone) = [] →
        select_papers_embed papers rateResults k = papers.filter fun p => p.embed_score.isSome) ∧
      ((papers.filter fun p => p.embed_score.isNone) ≠ [] →
        (embedSurvivorsOf papers rateResults).length < k →
        select_papers_embed papers rateResults k = embedSurvivorsOf papers rateResults) ∧
      ((papers.filter fun p => p.embed_score.isNone) ≠ [] →
        k ≤ (embedSurvivorsOf papers rateResults).length →
        select_papers_embed papers rateResults k =
          (sortDescBy embedKey (embedSurvivorsOf papers rateResults)).take k ∧
        (select_papers_embed papers rateResults k).length = k ∧
        (sortDescBy embedKey (embedSurvivorsOf papers rateResults)).Perm
          (embedSurvivorsOf papers rateResults) ∧
        (sortDescBy embedKey (embedSurvivorsOf papers rateResults)).Sorted
          fun a b => embedKey b ≤ embedKey a) := by
  refine ⟨?_, ?_, ?_⟩
  · intro hnil
    simp [select_papers_embed, hnil]
  · intro hne hlt
    have hni : ¬ (papers.filter fun p => p.embed_score.isNone).isEmpty := by
      simpa [List.isEmpty_iff] using hne
    simp [select_papers_embed, hni, hlt]
  · intro hne hge
    have hni : ¬ (papers.filter fun p => p.embed_score.isNone).isEmpty := by
      simpa [List.isEmpty_iff] using hne
    have hsel : select_papers_embed papers rateResults k =
        (sortDescBy embedKey (embedSurvivorsOf papers rateResults)).take k := by
      simp [select_papers_embed, hni, Nat.not_lt.mpr hge]
    refine ⟨hsel, ?_, sortDescBy_perm _ _, sortDescBy_sorted _ _⟩
    rw [hsel, List.length_take,
      (sortDescBy_perm embedKey (embedSurvivorsOf papers rateResults)).length_eq]
    omega

/-- C6 witness: similarity scores `[0.9, 0.2, 0.5]` (the third freshly
computed) and `top_k = 2` yield the `0.9` paper then the `0.5` paper. -/
theorem select_papers_embed_behavior_witness :
    select_papers_embed
        [⟨"1", some 9, none⟩, ⟨"2", some 2, none⟩, ⟨"3", none, none⟩]
        [⟨5, true, none, "embed"⟩] 2 =
      [⟨"1", some 9, none⟩, ⟨"3", some 5, none⟩] := by
  have h := (select_papers_embed_behavior
    [⟨"1", some 9, none⟩, ⟨"2", some 2, none⟩, ⟨"3", none, none⟩]
    [⟨5, true, none, "embed"⟩] 2).2.2 (by decide) (by decide)
  exact h.1.trans (by decide)

/-- C7 counterexample: with one cached rating `0.2`, one freshly rated
paper at `0.9` and `max_selected = 3`, the survivor count (2) is within
`max_selected`, and `select_papers_llm` returns the survivors in original
order `[0.2, 0.9]` (main.py:216-218) — not in the rating-descending order
the claim requires for this case. -/
theorem select_papers_llm_within_max_unsorted :
    select_papers_llm [⟨"1", none, some 2⟩, ⟨"2", none, none⟩]
        [⟨9, true, none, "llm_batch"⟩] 3 =
      [⟨"1", none, some 2⟩, ⟨"2", none, some 9⟩] ∧
      ¬ ([⟨"1", none, some 2⟩, (⟨"2", none, some 9⟩ : Paper)] : List Paper).Sorted
          (fun a b => llmKey b ≤ llmKey a) := by
  refine ⟨by decide, by decide⟩

/-- C7 amended: when the number of survivors (cached plus successfully
freshly rated) exceeds `max_selected`, or when no candidate needed fresh
rating, the returned list is the first `max_selected` entries of a stable
descending sort of the survivors by rating score.  But when at least one
candidate was freshly rated and the survivor count is within
`max_selected`, the full survivor set is returned in its original order
(cached first, then freshly rated) — not re-sorted. -/
theorem select_papers_llm_behavior (papers : List Paper) (rateResults : List RateResult)
    (m : ℕ) :
    ((papers.filter fun p => p.llm_score.isNone) = [] →
        select_papers_llm papers rateResults m =
          (sortDescBy llmKey (papers.filter fun p => p.llm_score.isSome)).take m ∧
        (sortDescBy llmKey (papers.filter fun p => p.llm_score.isSome)).Perm
          (papers.filter fun p => p.llm_score.isSome) ∧
        (sortDescBy llmKey (papers.filter fun p => p.llm_score.isSome)).Sorted
          fun a b => llmKey b ≤ llmKey a) ∧
      ((papers.filter fun p => p.llm_score.isNone) ≠ [] →
        (llmSurvivorsOf papers rateResults).length ≤ m →
        select_papers_llm papers rateResults m = llmSurvivorsOf papers rateResults) ∧
      ((papers.filter fun p => p.llm_score.isNone) ≠ [] →
        m < (llmSurvivorsOf papers rateResults).length →
        select_papers_llm papers rateResults m =
          (sortDescBy llmKey (llmSurvivorsOf papers rateResults)).take m ∧
        (select_papers_llm papers rateResults m).length = m ∧
        (sortDescBy llmKey (llmSurvivorsOf papers rateResults)).Perm
          (llmSurvivorsOf papers rateResults) ∧
        (sortDescBy llmKey (llmSurvivorsOf papers rateResults)).Sorted
          fun a b => llmKey b ≤ llmKey a) := by
  refine ⟨?_, ?_, ?_⟩
  · intro hnil
    exact ⟨by simp [select_papers_llm, hnil], sortDescBy_perm _ _, sortDescBy_sorted _ _⟩
  · intro hne hle
    have hni : ¬ (papers.filter fun p => p.llm_score.isNone).isEmpty := by
      simpa [List.isEmpty_iff] using hne
    simp [select_papers_llm, hni, hle]
  · intro hne hlt
    have hni : ¬ (papers.filter fun p => p.llm_score.isNone).isEmpty := by
      simpa [List.isEmpty_iff] using hne
    have hsel : select_papers_llm papers rateResults m =
        (sortDescBy llmKey (llmSurvivorsOf papers rateResults)).take m := by
      simp [select_papers_llm, hni, Nat.not_le.mpr hlt]
    refine ⟨hsel, ?_, sortDescBy_perm _ _, sortDescBy_sorted _ _⟩
    rw [hsel, List.length_take,
      (sortDescBy_perm llmKey (llmSurvivorsOf papers rateResults)).length_eq]
    omega

/-- C7 witness: three survivors against `max_selected = 2` are ranked by
rating descending and truncated to the two best. -/
theorem select_papers_llm_behavior_witness :
    select_papers_llm
        [⟨"1", none, some 2⟩, ⟨"2", none, none⟩, ⟨"3", none, some 8⟩]
        [⟨9, true, none, "llm_batch"⟩] 2 =
      [⟨"2", none, some 9⟩, ⟨"3", none, some 8⟩] := by
  have h := (select_papers_llm_behavior
    [⟨"1", none, some 2⟩, ⟨"2", none, none⟩, ⟨"3", none, some 8⟩]
    [⟨9, true, none, "llm_batch"⟩] 2).2.2 (by decide) (by decide)
  exact h.1.trans (by decide)

/- ----------------------------------------------------------------------
   Supporting lemmas for claim C5
   ---------------------------------------------------------------------- -/

theorem nodupKeys_iff (l : List String) : nodupKeys l = true ↔ l.Nodup := by
  induction l with
  | nil => simp [nodupKeys]
  | cons k rest ih => simp [nodupKeys, ih, List.nodup_cons]

theorem dumpsEntries_eq_map : ∀ l : JEntryList,
    dumpsEntries l = (toPairs l).map fun kv => (kv.1, dumps kv.2)
  | .enil => rfl
  | .econs k v rest => by simp [dumpsEntries, toPairs, dumpsEntries_eq_map rest]

theorem dumpsEntries_keys : ∀ l : JEntryList, (dumpsEntries l).map Prod.fst = jkeys l
  | .enil => rfl
  | .econs k v rest => by simp [dumpsEntries, jkeys, dumpsEntries_keys rest]

theorem sortPairs_perm (l : List (String × String)) : (sortPairs l).Perm l :=
  List.perm_insertionSort _ l

theorem sortPairs_sorted (l : List (String × String)) :
    (sortPairs l).Sorted fun a b => a.1 ≤ b.1 := by
  haveI : IsTotal (String × String) (fun a b => a.1 ≤ b.1) := ⟨fun a b => le_total a.1 b.1⟩
  haveI : IsTrans (String × String) (fun a b => a.1 ≤ b.1) :=
    ⟨fun _ _ _ h1 h2 => le_trans h1 h2⟩
  exact List.sorted_insertionSort _ l

theorem sorted_strict_of_nodup {l : List (String × String)}
    (hs : l.Sorted fun a b => a.1 ≤ b.1) (hnd : (l.map Prod.fst).Nodup) :
    l.Sorted fun a b => a.1 < b.1 := by
  have hne : l.Pairwise fun a b => a.1 ≠ b.1 := by
    simpa [List.Nodup, List.pairwise_map] using hnd
  exact (hs.and hne).imp fun h => lt_of_le_of_ne h.1 h.2

theorem sortPairs_eq_of_perm {l₁ l₂ : List (String × String)} (hp : l₁.Perm l₂)
    (hnd : (l₁.map Prod.fst).Nodup) : sortPairs l₁ = sortPairs l₂ := by
  haveI : IsAntisymm (String × String) (fun a b => a.1 < b.1) :=
    ⟨fun a b h1 h2 => absurd (h1.trans h2) (lt_irrefl a.1)⟩
  have hnd₂ : (l₂.map Prod.fst).Nodup := ((hp.map Prod.fst).nodup_iff).mp hnd
  have hp' : (sortPairs l₁).Perm (sortPairs l₂) :=
    ((sortPairs_perm l₁).trans hp).trans (sortPairs_perm l₂).symm
  have hnd₁' : ((sortPairs l₁).map Prod.fst).Nodup :=
    (((sortPairs_perm l₁).map Prod.fst).nodup_iff).mpr hnd
  have hnd₂' : ((sortPairs l₂).map Prod.fst).Nodup :=
    (((sortPairs_perm l₂).map Prod.fst).nodup_iff).mpr hnd₂
  exact List.eq_of_perm_of_sorted hp'
    (sorted_strict_of_nodup (sortPairs_sorted l₁) hnd₁')
    (sorted_strict_of_nodup (sortPairs_sorted l₂) hnd₂')

theorem wfEntries_iff_forall : ∀ l : JEntryList,
    wfEntries l = true ↔ ∀ kv ∈ toPairs l, wfJ kv.2 = true
  | .enil => by simp [wfEntries, toPairs]
  | .econs k v rest => by
    simp [wfEntries, toPairs, Bool.and_eq_true, wfEntries_iff_forall rest]

theorem jequiv_entries_keys : ∀ (l₁ : JEntryList) {l₂ : JEntryList},
    JEquivEntries l₁ l₂ → jkeys l₁ = jkeys l₂
  | .enil, l₂, h => by cases h; rfl
  | .econs k v r₁, l₂, h => by
    cases h with
    | cons _ hv ht => simp [jkeys]; exact jequiv_entries_keys r₁ ht

theorem dumpsList_eq_of_ih (n : ℕ)
    (ih : ∀ v w, jsize v ≤ n → wfJ v = true → wfJ w = true → JEquiv v w → dumps v = dumps w) :
    ∀ (l₁ : JList) {l₂ : JList}, JEquivList l₁ l₂ → jsizeList l₁ ≤ n →
      wfList l₁ = true → wfList l₂ = true → dumpsList l₁ = dumpsList l₂
  | .jnil, l₂, h, _, _, _ => by cases h; rfl
  | .jcons v r₁, l₂, h, hs, h1, h2 => by
    cases h with
    | cons hv ht =>
      have hs1 : jsize v ≤ n := by simp [jsizeList] at hs; omega
      have hs2 : jsizeList r₁ ≤ n := by simp [jsizeList] at hs; omega
      have h1' := by simpa [wfList, Bool.and_eq_true] using h1
      have h2' := by simpa [wfList, Bool.and_eq_true] using h2
      simp [dumpsList, ih v _ hs1 h1'.1 h2'.1 hv,
        dumpsList_eq_of_ih n ih r₁ ht hs2 h1'.2 h2'.2]

theorem dumpsEntries_eq_of_ih (n : ℕ)
    (ih : ∀ v w, jsize v ≤ n → wfJ v = true → wfJ w = true → JEquiv v w → dumps v = dumps w) :
    ∀ (l₁ : JEntryList) {l₂ : JEntryList}, JEquivEntries l₁ l₂ → jsizeEntries l₁ ≤ n →
      wfEntries l₁ = true → wfEntries l₂ = true → dumpsEntries l₁ = dumpsEntries l₂
  | .enil, l₂, h, _, _, _ => by cases h; rfl
  | .econs k v r₁, l₂, h, hs, h1, h2 => by
    cases h with
    | cons _ hv ht =>
      have hs1 : jsize v ≤ n := by simp [jsizeEntries] at hs; omega
      have hs2 : jsizeEntries r₁ ≤ n := by simp [jsizeEntries] at hs; omega
      have h1' := by simpa [wfEntries, Bool.and_eq_true] using h1
      have h2' := by simpa [wfEntries, Bool.and_eq_true] using h2
      simp [dumpsEntries, ih v _ hs1 h1'.1 h2'.1 hv,
        dumpsEntries_eq_of_ih n ih r₁ ht hs2 h1'.2 h2'.2]

theorem dumps_eq_of_jequiv : ∀ (n : ℕ) (v w : JValue), jsize v ≤ n →
    wfJ v = true → wfJ w = true → JEquiv v w → dumps v = dumps w := by
  intro n
  induction n with
  | zero =>
    intro v w hs _ _ _
    exfalso
    cases v <;> simp [jsize] at hs
  | succ n ih =>
    intro v w hs hv hw heq
    cases heq with
    | null => rfl
    | jbool b => rfl
    | num m => rfl
    | str s => rfl
    | arr hl =>
      rename_i l₁ l₂
      have hs' : jsizeList l₁ ≤ n := by simp [jsize] at hs; omega
      have h1 : wfList l₁ = true := by simpa [wfJ] using hv
      have h2 : wfList l₂ = true := by simpa [wfJ] using hw
      simp [dumps, dumpsList_eq_of_ih n ih l₁ hl hs' h1 h2]
    | obj he hp =>
      rename_i l₁ mid l₂
      have hs' : jsizeEntries l₁ ≤ n := by simp [jsize] at hs; omega
      have hv' := by simpa [wfJ, Bool.and_eq_true] using hv
      have hw' := by simpa [wfJ, Bool.and_eq_true] using hw
      have hmid : wfEntries mid = true :=
        (wfEntries_iff_forall mid).mpr fun kv hkv =>
          (wfEntries_iff_forall l₂).mp hw'.2 kv (hp.subset hkv)
      have heq1 : dumpsEntries l₁ = dumpsEntries mid :=
        dumpsEntries_eq_of_ih n ih l₁ he hs' hv'.2 hmid
      have hpd : (dumpsEntries mid).Perm (dumpsEntries l₂) := by
        rw [dumpsEntries_eq_map, dumpsEntries_eq_map]
        exact hp.map _
      have hkeys : jkeys l₁ = jkeys mid := jequiv_entries_keys l₁ he
      have hnd : ((dumpsEntries mid).map Prod.fst).Nodup := by
        rw [dumpsEntries_keys, ← hkeys]
        exact (nodupKeys_iff _).mp hv'.1
      have hsort : sortPairs (dumpsEntries l₁) = sortPairs (dumpsEntries l₂) := by
        rw [heq1]
        exact sortPairs_eq_of_perm hpd hnd
      simp [dumps, hsort]

/- ----------------------------------------------------------------------
   Theorem for claim C5
   ---------------------------------------------------------------------- -/

/-- C5: for every pair of well-formed configuration values that are equal
as unordered key-value mappings (nested included) but enumerate keys in
different orders, `_calculate_config_hash` yields the identical hash
string, whatever digest function is applied to the serialized form: the
hash is a deterministic, key-order-independent function of configuration
content. -/
theorem calculate_config_hash_key_order_independent (sha : String → String) (c₁ c₂ : JValue)
    (h₁ : wfJ c₁ = true) (h₂ : wfJ c₂ = true) (heq : JEquiv c₁ c₂) :
    calculate_config_hash sha c₁ = calculate_config_hash sha c₂ :=
  congrArg sha (dumps_eq_of_jequiv (jsize c₁) c₁ c₂ le_rfl h₁ h₂ heq)

/-- C5 witness: a two-level configuration with both nesting levels
enumerated in opposite key orders hashes identically. -/
theorem calculate_config_hash_key_order_independent_witness :
    wfJ sampleConfigA = true ∧ wfJ sampleConfigB = true ∧
      calculate_config_hash (fun s => s) sampleConfigA =
        calculate_config_hash (fun s => s) sampleConfigB := by
  have hinner : JEquiv
      (.obj (.econs "model" (.str "m1") (.econs "temp" (.num 1) .enil)))
      (.obj (.econs "temp" (.num 1) (.econs "model" (.str "m1") .enil))) := by
    refine JEquiv.obj
      (JEquivEntries.cons "model" (JEquiv.str "m1")
        (JEquivEntries.cons "temp" (JEquiv.num 1) JEquivEntries.nil)) ?_
    simp only [toPairs]
    exact List.Perm.swap _ _ _
  refine ⟨by decide, by decide,
    calculate_config_hash_key_order_independent _ _ _ (by decide) (by decide) ?_⟩
  refine JEquiv.obj
    (JEquivEntries.cons "summarizer" hinner
      (JEquivEntries.cons "provider" (JEquiv.str "openai") JEquivEntries.nil)) ?_
  simp only [toPairs]
  exact List.Perm.swap _ _ _

/- ----------------------------------------------------------------------
   Theorem for claim C8
   ---------------------------------------------------------------------- -/

/-- C8: the claim states that a run fetching zero items completes without
raising even when a log file is configured for delivery.  The code
violates this: every early exit runs `deliver([log_file_path],
config[deliver])`, subscripting the string-keyed pipeline-config dict with
the imported function object `deliver` instead of the string `"deliver"`
(main.py:352; the same typo at main.py:363, 389, 406; the non-early-exit
call at main.py:425 correctly uses `config["deliver"]`).  With a log file
configured the lookup raises `KeyError` and `run_pipeline` re-raises it;
without a log file the run returns normally. -/
theorem run_pipeline_no_papers_keyerror :
    run_pipeline_no_papers
        [(PyKey.str "deliver", "deliver-config"), (PyKey.str "cache", "cache-config")] true =
      .error "KeyError" ∧
      run_pipeline_no_papers
        [(PyKey.str "deliver", "deliver-config"), (PyKey.str "cache", "cache-config")] false =
      .ok () :=
  ⟨rfl, rfl⟩

/- ----------------------------------------------------------------------
   Theorems for claim C9
   ---------------------------------------------------------------------- -/

theorem totalSize_append (a b : List Artifact) :
    totalSize (a ++ b) = totalSize a + totalSize b := by
  simp [totalSize]

theorem evictFrom_total_le (target : ℕ) (kept : List Artifact) :
    ∀ cands, totalSize kept ≤ target →
      totalSize kept + totalSize (evictFrom target kept cands) ≤ target
  | [], h => by simpa [evictFrom, totalSize] using h
  | c :: rest, h => by
    by_cases hc : totalSize kept + totalSize (c :: rest) ≤ target
    · simp [evictFrom, hc]
    · simpa [evictFrom, hc] using evictFrom_total_le target kept rest h

theorem evictFrom_subset (target : ℕ) (kept : List Artifact) :
    ∀ cands, evictFrom target kept cands ⊆ cands
  | [] => by simp [evictFrom]
  | c :: rest => by
    by_cases hc : totalSize kept + totalSize (c :: rest) ≤ target
    · simp [evictFrom, hc]
    · have hsub := evictFrom_subset target kept rest
      simp only [evictFrom, hc, if_false]
      exact fun x hx => List.mem_cons_of_mem _ (hsub hx)

theorem evictFrom_drop (target : ℕ) (kept : List Artifact) :
    ∀ cands, ∃ k, evictFrom target kept cands = cands.drop k
  | [] => ⟨0, rfl⟩
  | c :: rest => by
    by_cases hc : totalSize kept + totalSize (c :: rest) ≤ target
    · exact ⟨0, by simp [evictFrom, hc]⟩
    · obtain ⟨k, hk⟩ := evictFrom_drop target kept rest
      exact ⟨k + 1, by simp [evictFrom, hc, hk]⟩

/-- C9 (modelled from the spec, the implementation being absent from
`src/`): whenever the cached artifacts exceed the size budget and the
kept artifacts alone fit in the target, eviction brings the total size
down to at most `max(80% of budget, budget - 128MB)` — `896MB` for a
`1024MB` budget — never deletes a kept artifact, deletes only existing
artifacts, and the deleted artifacts form a least-recently-used-first
prefix of the non-kept candidates. -/
theorem evictLargeArtifacts_spec (keepSet : List String) (budget : ℕ)
    (arts : List Artifact) (hover : budget < totalSize arts)
    (hkept : totalSize (arts.filter fun a => keepSet.contains a.name) ≤ evictTarget budget) :
    totalSize (evictLargeArtifacts keepSet budget arts) ≤ evictTarget budget ∧
      (∀ a ∈ arts, keepSet.contains a.name = true →
        a ∈ evictLargeArtifacts keepSet budget arts) ∧
      (∀ a ∈ evictLargeArtifacts keepSet budget arts, a ∈ arts) ∧
      (∃ k, evictLargeArtifacts keepSet budget arts =
        (arts.filter fun a => keepSet.contains a.name) ++
          (sortByLastUsed (arts.filter fun a => !keepSet.contains a.name)).drop k) ∧
      evictTarget (1024 * 1024 * 1024) = 896 * 1024 * 1024 := by
  have hno : ¬ totalSize arts ≤ budget := Nat.not_le.mpr hover
  have hE : evictLargeArtifacts keepSet budget arts =
      (arts.filter fun a => keepSet.contains a.name) ++
        evictFrom (evictTarget budget) (arts.filter fun a => keepSet.contains a.name)
          (sortByLastUsed (arts.filter fun a => !keepSet.contains a.name)) := by
    simp [evictLargeArtifacts, hno]
  refine ⟨?_, ?_, ?_, ?_, by decide⟩
  · rw [hE, totalSize_append]
    exact evictFrom_total_le _ _ _ hkept
  · intro a ha hk
    rw [hE]
    exact List.mem_append_left _ (List.mem_filter.mpr ⟨ha, hk⟩)
  · intro a ha
    rw [hE] at ha
    rcases List.mem_append.mp ha with h | h
    · exact List.mem_of_mem_filter h
    · have h1 : a ∈ sortByLastUsed (arts.filter fun a => !keepSet.contains a.name) :=
        evictFrom_subset _ _ _ h
      have h2 : a ∈ arts.filter fun a => !keepSet.contains a.name := by
        simpa [sortByLastUsed] using h1
      exact List.mem_of_mem_filter h2
  · obtain ⟨k, hk⟩ := evictFrom_drop (evictTarget budget)
      (arts.filter fun a => keepSet.contains a.name)
      (sortByLastUsed (arts.filter fun a => !keepSet.contains a.name))
    exact ⟨k, by rw [hE, hk]⟩

/-- C9 witness: three 400MB artifacts against a 1024MB budget, one of them
kept.  The least-recently-used non-kept artifact is evicted; the kept one
survives and the total 800MB is within the 896MB target. -/
theorem evictLargeArtifacts_spec_witness :
    totalSize (evictLargeArtifacts ["keepme"] (1024 * 1024 * 1024)
        [⟨"keepme", 419430400, 0⟩, ⟨"a", 419430400, 1⟩, ⟨"b", 419430400, 2⟩]) ≤
      evictTarget (1024 * 1024 * 1024) ∧
      evictLargeArtifacts ["keepme"] (1024 * 1024 * 1024)
          [⟨"keepme", 419430400, 0⟩, ⟨"a", 419430400, 1⟩, ⟨"b", 419430400, 2⟩] =
        [⟨"keepme", 419430400, 0⟩, ⟨"b", 419430400, 2⟩] := by
  have h := evictLargeArtifacts_spec ["keepme"] (1024 * 1024 * 1024)
    [⟨"keepme", 419430400, 0⟩, ⟨"a", 419430400, 1⟩, ⟨"b", 419430400, 2⟩]
    (by decide) (by decide)
  exact ⟨h.1, by decide⟩
